import Mathlib

/-!
Shallow embedding of the AI-Tutor document ingestion and retrieval pipeline
(question extraction, merge/dedup, chunking, figure cropping, persistence
idempotency, retrieval formatting), with theorems checking the
natural-language specification against the code.
-/

/-- Difficulty enum from the `ExtractedQuestion` interface
(src/lib/gemini-parser.ts). -/
inductive Difficulty where
  | easy
  | medium
  | hard
deriving DecidableEq, Repr

/-- Bounding box `[ymin, xmin, ymax, xmax]` on a 0-1000 scale (Gemini format),
as used by `figureBoundingBox` / `imageBoundingBox` and the crop functions. -/
structure BBox where
  ymin : Int
  xmin : Int
  ymax : Int
  xmax : Int
deriving DecidableEq, Repr

/-- The `ExtractedQuestion` interface of src/lib/gemini-parser.ts.
`marks` is `number | null` in the source, hence `Option Int` here
(normalised to `some 0` by the validation pass). -/
structure ExtractedQuestion where
  questionNumber : String
  text : String
  marks : Option Int
  topic : String
  difficulty : Difficulty
  hasImage : Bool
  figureBoundingBox : Option BBox
  pageNumber : Int
deriving DecidableEq, Repr

/-- Normalisation step of `extractQuestionsFromPDF`: null/undefined `marks`
becomes `0` (`if (q.marks === null || q.marks === undefined) q.marks = 0`). -/
def normalizeMarks (q : ExtractedQuestion) : ExtractedQuestion :=
  { q with marks := some (q.marks.getD 0) }

/-- The required-field check of `extractQuestionsFromPDF`:
`!q.questionNumber || !q.text || typeof q.marks !== 'number' || !q.topic`
invalidates the record (empty strings are falsy in JS; after normalisation
`marks` is a number exactly when it is `some _`). -/
def validQuestion (q : ExtractedQuestion) : Bool :=
  !(q.questionNumber == "") && !(q.text == "") && q.marks.isSome && !(q.topic == "")

/-- The validation pass of `extractQuestionsFromPDF` (lines 140-156): each
record is normalised, and the first invalid record throws, aborting the whole
batch with no partial result. -/
def validateQuestions : List ExtractedQuestion → Except String (List ExtractedQuestion)
  | [] => .ok []
  | q :: rest =>
    let q' := normalizeMarks q
    if validQuestion q' then
      match validateQuestions rest with
      | .ok qs => .ok (q' :: qs)
      | .error e => .error e
    else .error ("Invalid question: " ++ q'.questionNumber)

/-- The dedup loop of `extractQuestionsFromPDF` (lines 158-169): a `seen` set
of question numbers; a record whose `questionNumber` was already seen is
skipped, otherwise it is kept and its number added to `seen`. -/
def dedupGo (seen : List String) : List ExtractedQuestion → List ExtractedQuestion
  | [] => []
  | q :: rest =>
    if seen.contains q.questionNumber then dedupGo seen rest
    else q :: dedupGo (q.questionNumber :: seen) rest

/-- `extractQuestionsFromPDF`'s deduplication by `questionNumber`,
keeping the first occurrence. -/
def dedupByQuestionNumber (qs : List ExtractedQuestion) : List ExtractedQuestion :=
  dedupGo [] qs

/-- The sub-question test of the 0-mark filter in `extractQuestionsFromPDF`
(lines 182-186): some other record's number starts with this record's number
followed by `'('`. -/
def hasSubQuestion (qs : List ExtractedQuestion) (q : ExtractedQuestion) : Bool :=
  qs.any (fun other =>
    !(other.questionNumber == q.questionNumber) &&
      String.startsWith other.questionNumber (q.questionNumber ++ "("))

/-- The 0-mark parent filter of `extractQuestionsFromPDF` (lines 179-195):
a record with `marks == 0` is dropped when a sub-question of it exists in the
(deduplicated) list; every other record is kept. -/
def filterZeroMarkParents (qs : List ExtractedQuestion) : List ExtractedQuestion :=
  qs.filter (fun q => !(q.marks == some 0 && hasSubQuestion qs q))

/-! ### Helper lemmas for deduplication -/

theorem dedupGo_sublist (seen : List String) (qs : List ExtractedQuestion) :
    List.Sublist (dedupGo seen qs) qs := by
  induction qs generalizing seen with
  | nil => simp [dedupGo]
  | cons p rest ih =>
    simp only [dedupGo]
    split
    · exact (ih seen).trans (List.sublist_cons_self p rest)
    · exact List.Sublist.cons₂ p (ih _)

theorem dedupGo_mem_props (seen : List String) (qs : List ExtractedQuestion)
    (q : ExtractedQuestion) (hq : q ∈ dedupGo seen qs) :
    seen.contains q.questionNumber = false ∧
      List.find? (fun r => r.questionNumber == q.questionNumber) qs = some q := by
  induction qs generalizing seen with
  | nil => simp [dedupGo] at hq
  | cons p rest ih =>
    simp only [dedupGo] at hq
    by_cases hseen : seen.contains p.questionNumber
    · rw [if_pos hseen] at hq
      obtain ⟨hnot, hfind⟩ := ih seen hq
      have hne : (p.questionNumber == q.questionNumber) = false := by
        rw [beq_eq_false_iff_ne]
        intro h
        rw [h, hnot] at hseen
        exact Bool.false_ne_true hseen
      refine ⟨hnot, ?_⟩
      rw [List.find?_cons, hne]
      exact hfind
    · rw [if_neg hseen] at hq
      rcases List.mem_cons.mp hq with rfl | hq'
      · refine ⟨Bool.eq_false_iff.mpr hseen, ?_⟩
        rw [List.find?_cons, beq_self_eq_true]
      · obtain ⟨hnot, hfind⟩ := ih (p.questionNumber :: seen) hq'
        rw [List.contains_cons, Bool.or_eq_false_iff] at hnot
        refine ⟨hnot.2, ?_⟩
        have hne : (p.questionNumber == q.questionNumber) = false := by
          rw [beq_eq_false_iff_ne]
          intro h
          rw [h] at hnot
          simp at hnot
        rw [List.find?_cons, hne]
        exact hfind

theorem dedupGo_keeps_key (seen : List String) (qs : List ExtractedQuestion)
    (q : ExtractedQuestion) (hq : q ∈ qs)
    (hs : seen.contains q.questionNumber = false) :
    ∃ q' ∈ dedupGo seen qs, q'.questionNumber = q.questionNumber := by
  induction qs generalizing seen with
  | nil => cases hq
  | cons p rest ih =>
    simp only [dedupGo]
    by_cases hseen : seen.contains p.questionNumber
    · rw [if_pos hseen]
      rcases List.mem_cons.mp hq with rfl | hq'
      · rw [hs] at hseen
        exact absurd hseen (Bool.false_ne_true)
      · exact ih seen hq' hs
    · rw [if_neg hseen]
      rcases List.mem_cons.mp hq with rfl | hq'
      · exact ⟨q, List.mem_cons_self q _, rfl⟩
      · by_cases hk : q.questionNumber = p.questionNumber
        · exact ⟨p, List.mem_cons_self p _, hk.symm⟩
        · have hs' : (p.questionNumber :: seen).contains q.questionNumber = false := by
            rw [List.contains_cons, Bool.or_eq_false_iff]
            exact ⟨beq_eq_false_iff_ne.mpr hk, hs⟩
          obtain ⟨q', hq'', hkey⟩ := ih _ hq' hs'
          exact ⟨q', List.mem_cons_of_mem p hq'', hkey⟩

theorem dedupGo_keys_nodup (seen : List String) (qs : List ExtractedQuestion) :
    ((dedupGo seen qs).map (fun q => q.questionNumber)).Nodup := by
  induction qs generalizing seen with
  | nil => simp [dedupGo]
  | cons p rest ih =>
    simp only [dedupGo]
    split
    · exact ih seen
    · simp only [List.map_cons, List.nodup_cons]
      refine ⟨?_, ih _⟩
      intro hmem
      obtain ⟨q', hq', hkey⟩ := List.mem_map.mp hmem
      have hc := (dedupGo_mem_props _ _ _ hq').1
      rw [List.contains_cons, Bool.or_eq_false_iff, beq_eq_false_iff_ne] at hc
      exact hc.1 hkey

/-! ### Claim C3: zero-mark parent pruning -/

/-- A lone zero-mark record with no hierarchical child, for the leaf-retention
part of claim C3. -/
def q4aLeaf : ExtractedQuestion :=
  ⟨"4(a)", "a zero mark leaf", some 0, "Mechanics", .easy, false, none, 1⟩

/-- Claim C3: in the deduplicated extracted-question list, a record with
`marks == 0` is dropped if and only if some other record's `questionNumber`
starts with this record's `questionNumber` immediately followed by an opening
parenthesis; in particular a zero-mark record with no such hierarchical child
is retained. -/
theorem zeroMark_dropped_iff_child :
    (∀ (qs : List ExtractedQuestion) (q : ExtractedQuestion),
      q ∈ filterZeroMarkParents qs ↔
        q ∈ qs ∧ ¬(q.marks = some 0 ∧ ∃ other ∈ qs,
          other.questionNumber ≠ q.questionNumber ∧
            (other.questionNumber).startsWith (q.questionNumber ++ "(") = true))
    ∧ filterZeroMarkParents [q4aLeaf] = [q4aLeaf] := by
  constructor
  · intro qs q
    have key : (q.marks == some 0 && hasSubQuestion qs q) = true ↔
        (q.marks = some 0 ∧ ∃ other ∈ qs, other.questionNumber ≠ q.questionNumber ∧
          (other.questionNumber).startsWith (q.questionNumber ++ "(") = true) := by
      rw [Bool.and_eq_true, beq_iff_eq, hasSubQuestion, List.any_eq_true]
      constructor
      · rintro ⟨h1, other, hmem, h2⟩
        rw [Bool.and_eq_true, Bool.not_eq_true', beq_eq_false_iff_ne] at h2
        exact ⟨h1, other, hmem, h2.1, h2.2⟩
      · rintro ⟨h1, other, hmem, hne, hpre⟩
        refine ⟨h1, other, hmem, ?_⟩
        rw [Bool.and_eq_true, Bool.not_eq_true', beq_eq_false_iff_ne]
        exact ⟨hne, hpre⟩
    have hb : ∀ b : Bool, ((!b) = true) ↔ ¬(b = true) := by decide
    rw [filterZeroMarkParents, List.mem_filter, hb, key]
  · decide

/-! ### Claim C4: dedup keeps the first occurrence -/

/-- First occurrence of `"1(a)"` in the C4 example. -/
def ex1aFirst : ExtractedQuestion :=
  ⟨"1(a)", "first occurrence data", some 3, "Waves", .medium, false, none, 1⟩

/-- A later duplicate of `"1(a)"` carrying different data. -/
def ex1aSecond : ExtractedQuestion :=
  ⟨"1(a)", "duplicate data", some 4, "Waves", .hard, false, none, 2⟩

/-- The `"1(b)"` record of the C4 example. -/
def ex1b : ExtractedQuestion :=
  ⟨"1(b)", "part b", some 2, "Waves", .easy, false, none, 1⟩

/-- Claim C4: deduplication by `questionNumber` keeps the first occurrence in
input order and drops all later occurrences, preserving first-seen order
(the output is a subsequence of the input with pairwise distinct keys, every
input key survives, and each survivor is the input's first record with its
key); on `["1(a)", "1(a)", "1(b)"]` it returns exactly the first `"1(a)"`
record followed by `"1(b)"`. -/
theorem dedup_keeps_first_occurrence :
    (∀ qs, List.Sublist (dedupByQuestionNumber qs) qs)
    ∧ (∀ qs, ((dedupByQuestionNumber qs).map (fun q => q.questionNumber)).Nodup)
    ∧ (∀ qs q, q ∈ dedupByQuestionNumber qs →
        List.find? (fun r => r.questionNumber == q.questionNumber) qs = some q)
    ∧ (∀ qs q, q ∈ qs →
        ∃ q' ∈ dedupByQuestionNumber qs, q'.questionNumber = q.questionNumber)
    ∧ dedupByQuestionNumber [ex1aFirst, ex1aSecond, ex1b] = [ex1aFirst, ex1b] := by
  refine ⟨fun qs => dedupGo_sublist [] qs,
    fun qs => dedupGo_keys_nodup [] qs,
    fun qs q hq => (dedupGo_mem_props [] qs q hq).2,
    fun qs q hq => dedupGo_keeps_key [] qs q hq rfl,
    by decide⟩

/-! ### Claim C5: the page chunker -/

/-- The chunking loop of `extractQuestionsFromPDF` (lines 84-96):
`for (let i = 0; i < totalPages; i += CHUNK_SIZE)` with
`startPage = i`, `endPage = min(i + CHUNK_SIZE, totalPages)`, generalised over
the chunk size (the source fixes `CHUNK_SIZE = 10`). Each produced pair is a
chunk's `[startPage, endPage)` page range. -/
def chunkRangesAux (P C i : Nat) : List (Nat × Nat) :=
  if _h : i < P ∧ 0 < C then (i, min (i + C) P) :: chunkRangesAux P C (i + C)
  else []
termination_by P - i
decreasing_by omega

/-- All chunk page ranges for a document with `P` pages and chunk size `C`. -/
def chunkRanges (P C : Nat) : List (Nat × Nat) :=
  chunkRangesAux P C 0

theorem chunkRangesAux_eq (P C : Nat) (hC : 0 < C) :
    ∀ (n i : Nat), P - i ≤ n →
      chunkRangesAux P C i =
        (List.range ((P - i + C - 1) / C)).map
          (fun j => (i + j * C, min (i + j * C + C) P)) := by
  intro n
  induction n with
  | zero =>
    intro i hi
    rw [chunkRangesAux]
    rw [dif_neg (by omega)]
    have h1 : P - i + C - 1 = C - 1 := by omega
    rw [h1, Nat.div_eq_of_lt (by omega), List.range_zero, List.map_nil]
  | succ n ih =>
    intro i hi
    rw [chunkRangesAux]
    by_cases h : i < P
    · rw [dif_pos ⟨h, hC⟩, ih (i + C) (by omega)]
      have hlen : (P - i + C - 1) / C = (P - (i + C) + C - 1) / C + 1 := by
        rcases Nat.lt_or_ge (i + C) P with hgt | hle
        · have h1 : P - (i + C) + C - 1 = P - i - 1 := by omega
          have h2 : P - i + C - 1 = (P - i - 1) + C := by omega
          rw [h1, h2, Nat.add_div_right _ hC]
        · have h1 : P - (i + C) = 0 := by omega
          rw [h1]
          have h2 : (0 + C - 1) / C = 0 := Nat.div_eq_of_lt (by omega)
          rw [h2]
          exact Nat.div_eq_of_lt_le (by omega) (by omega)
      rw [hlen, List.range_succ_eq_map, List.map_cons, List.map_map]
      refine congrArg₂ List.cons ?_ ?_
      · simp
      · apply List.map_congr_left
        intro j _
        simp only [Function.comp_apply]
        have h3 : i + C + j * C = i + (j + 1) * C := by ring
        rw [h3]
    · rw [dif_neg (by omega)]
      have h1 : P - i + C - 1 = C - 1 := by omega
      rw [h1, Nat.div_eq_of_lt (by omega), List.range_zero, List.map_nil]

theorem chunkRanges_eq (P C : Nat) (hC : 0 < C) :
    chunkRanges P C =
      (List.range ((P + C - 1) / C)).map
        (fun j => (j * C, min (j * C + C) P)) := by
  rw [chunkRanges, chunkRangesAux_eq P C hC P 0 (by omega)]
  simp

/-- Claim C5: for every page count `P` and chunk size `C > 0`, the chunker
produces `ceil(P/C)` sequential, non-overlapping page-range chunks that
exactly and disjointly cover `[0, P)`, each exposing its own start page
(chunk `j` is `[j*C, min((j+1)*C, P))`); a document with zero pages yields
zero chunks. -/
theorem chunker_exact_disjoint_cover (P C : Nat) (hC : 0 < C) :
    chunkRanges P C =
        (List.range ((P + C - 1) / C)).map
          (fun j => (j * C, min (j * C + C) P))
    ∧ (chunkRanges P C).length = (P + C - 1) / C
    ∧ (∀ p, p < P ↔ ∃ c ∈ chunkRanges P C, c.1 ≤ p ∧ p < c.2)
    ∧ (∀ p c₁ c₂, c₁ ∈ chunkRanges P C → c₂ ∈ chunkRanges P C →
        c₁.1 ≤ p → p < c₁.2 → c₂.1 ≤ p → p < c₂.2 → c₁ = c₂)
    ∧ chunkRanges 0 C = [] := by
  have heq := chunkRanges_eq P C hC
  refine ⟨heq, by rw [heq, List.length_map, List.length_range], ?_, ?_, ?_⟩
  · intro p
    constructor
    · intro hp
      have hjlt : p / C < (P + C - 1) / C := by
        have h1 : p ≤ P - 1 := by omega
        have h2 : p / C ≤ (P - 1) / C := Nat.div_le_div_right h1
        rw [show P + C - 1 = (P - 1) + C by omega, Nat.add_div_right _ hC]
        omega
      have hle : p / C * C ≤ p := Nat.div_mul_le_self p C
      have hlt : p < (p / C + 1) * C := (Nat.div_lt_iff_lt_mul hC).mp (Nat.lt_succ_self _)
      rw [add_one_mul] at hlt
      refine ⟨(p / C * C, min (p / C * C + C) P), ?_, hle, lt_min hlt hp⟩
      rw [heq]
      exact List.mem_map.mpr ⟨p / C, List.mem_range.mpr hjlt, rfl⟩
    · rintro ⟨c, hc, _h1, h2⟩
      rw [heq] at hc
      obtain ⟨j, _hj, rfl⟩ := List.mem_map.mp hc
      exact lt_of_lt_of_le h2 (min_le_right _ _)
  · intro p c₁ c₂ hc₁ hc₂ hl₁ hr₁ hl₂ hr₂
    rw [heq] at hc₁ hc₂
    obtain ⟨j, _hj, rfl⟩ := List.mem_map.mp hc₁
    obtain ⟨k, _hk, rfl⟩ := List.mem_map.mp hc₂
    simp only at hl₁ hr₁ hl₂ hr₂
    have hr₁' : p < j * C + C := lt_of_lt_of_le hr₁ (min_le_left _ _)
    have hr₂' : p < k * C + C := lt_of_lt_of_le hr₂ (min_le_left _ _)
    have hjk : j = k := by
      rcases Nat.lt_trichotomy j k with h | h | h
      · exfalso
        have h1 : (j + 1) * C ≤ k * C := Nat.mul_le_mul_right C h
        rw [add_one_mul] at h1
        omega
      · exact h
      · exfalso
        have h1 : (k + 1) * C ≤ j * C := Nat.mul_le_mul_right C h
        rw [add_one_mul] at h1
        omega
    rw [hjk]
  · rw [chunkRanges, chunkRangesAux]
    rw [dif_neg (by omega)]

/-- Closed instance of claim C5 at `P = 5`, `C = 2`: three chunks
`[(0,2), (2,4), (4,5)]`. -/
theorem chunker_exact_disjoint_cover_witness :
    0 < 2
    ∧ (chunkRanges 5 2 =
          (List.range ((5 + 2 - 1) / 2)).map
            (fun j => (j * 2, min (j * 2 + 2) 5))
      ∧ (chunkRanges 5 2).length = (5 + 2 - 1) / 2
      ∧ (∀ p, p < 5 ↔ ∃ c ∈ chunkRanges 5 2, c.1 ≤ p ∧ p < c.2)
      ∧ (∀ p c₁ c₂, c₁ ∈ chunkRanges 5 2 → c₂ ∈ chunkRanges 5 2 →
          c₁.1 ≤ p → p < c₁.2 → c₂.1 ≤ p → p < c₂.2 → c₁ = c₂)
      ∧ chunkRanges 0 2 = []) :=
  ⟨by decide, chunker_exact_disjoint_cover 5 2 (by decide)⟩

/-! ### Claim C6: figure cropping -/

/-- JavaScript `Math.round`: round half towards positive infinity. -/
def jsRound (x : ℚ) : Int := Int.floor (x + 1 / 2)

/-- Crop rectangle of the pdfjs-based `cropAndSaveImage`
(src/lib/rag/pdf-image.ts): fractional canvas coordinates. -/
structure CropRectQ where
  x : ℚ
  y : ℚ
  w : ℚ
  h : ℚ
deriving DecidableEq, Repr

/-- `cropAndSaveImage` of src/lib/rag/pdf-image.ts (lines 56-69), the cropper
the ingest pipeline imports: the 0-1000 box is scaled to viewport
coordinates, and the crop is rejected when its width or height is
non-positive. -/
def cropRectPdfjs (width height : ℚ) (b : BBox) : Option CropRectQ :=
  let w := (((b.xmax - b.xmin : Int) : ℚ) / 1000) * width
  let h := (((b.ymax - b.ymin : Int) : ℚ) / 1000) * height
  if w ≤ 0 ∨ h ≤ 0 then none
  else some ⟨((b.xmin : ℚ) / 1000) * width, ((b.ymin : ℚ) / 1000) * height, w, h⟩

/-- Integer crop rectangle of the mupdf-based `cropAndSaveImage`. -/
structure CropRectZ where
  left : Int
  top : Int
  width : Int
  height : Int
deriving DecidableEq, Repr

/-- `PADDING_PERCENT = 2` of the mupdf-based `cropAndSaveImage`. -/
def PADDING_PERCENT : ℚ := 2

/-- `xPadding = Math.round(((xmax - xmin) * PADDING_PERCENT) / 100)`. -/
def mupdfXPad (b : BBox) : Int :=
  jsRound (((b.xmax - b.xmin : Int) : ℚ) * PADDING_PERCENT / 100)

/-- `yPadding = Math.round(((ymax - ymin) * PADDING_PERCENT) / 100)`. -/
def mupdfYPad (b : BBox) : Int :=
  jsRound (((b.ymax - b.ymin : Int) : ℚ) * PADDING_PERCENT / 100)

/-- `left = Math.max(0, Math.round((xmin / 1000) * width) - xPadding)`. -/
def mupdfLeft (width : Int) (b : BBox) : Int :=
  max 0 (jsRound (((b.xmin : ℚ) / 1000) * (width : ℚ)) - mupdfXPad b)

/-- `top = Math.max(0, Math.round((ymin / 1000) * height) - yPadding)`. -/
def mupdfTop (height : Int) (b : BBox) : Int :=
  max 0 (jsRound (((b.ymin : ℚ) / 1000) * (height : ℚ)) - mupdfYPad b)

/-- `cropWidth = Math.round(((xmax - xmin) / 1000) * width) + 2 * xPadding`
then `cropWidth = Math.min(cropWidth, width - left)`. -/
def mupdfCropW (width : Int) (b : BBox) : Int :=
  min (jsRound ((((b.xmax - b.xmin : Int) : ℚ) / 1000) * (width : ℚ)) + 2 * mupdfXPad b)
    (width - mupdfLeft width b)

/-- `cropHeight = Math.round(((ymax - ymin) / 1000) * height) + 2 * yPadding`
then `cropHeight = Math.min(cropHeight, height - top)`. -/
def mupdfCropH (height : Int) (b : BBox) : Int :=
  min (jsRound ((((b.ymax - b.ymin : Int) : ℚ) / 1000) * (height : ℚ)) + 2 * mupdfYPad b)
    (height - mupdfTop height b)

/-- `cropAndSaveImage` of the mupdf-based module (src/unnamed/part_009,
lines 96-117): pad by 2% a side, clamp to the page, and reject when the
clamped width or height is non-positive. -/
def cropRectMupdf (width height : Int) (b : BBox) : Option CropRectZ :=
  if mupdfCropW width b ≤ 0 ∨ mupdfCropH height b ≤ 0 then none
  else some ⟨mupdfLeft width b, mupdfTop height b, mupdfCropW width b, mupdfCropH height b⟩

/-- Claim C6 counterexample: on a 1000×1000 page with box
`(ymin, xmin, ymax, xmax) = (0, 0, 500, 500)`, the pdfjs-based cropper
`src/lib/rag/pdf-image.ts` — the one the ingest pipeline imports — returns
exactly the unpadded 500×500 box (the 2%-padded, clamped crop of the
mupdf-based cropper is 520×520), so figure cropping on the pipeline's path
does not expand the crop box by any padding. -/
theorem crop_no_padding_counterexample :
    cropRectPdfjs 1000 1000 ⟨0, 0, 500, 500⟩ = some ⟨0, 0, 500, 500⟩
    ∧ cropRectMupdf 1000 1000 ⟨0, 0, 500, 500⟩ = some ⟨0, 0, 520, 520⟩
    ∧ ¬∃ r : CropRectQ,
        cropRectPdfjs 1000 1000 ⟨0, 0, 500, 500⟩ = some r ∧ 500 < r.w := by
  have h : cropRectPdfjs 1000 1000 ⟨0, 0, 500, 500⟩ = some ⟨0, 0, 500, 500⟩ := by
    norm_num [cropRectPdfjs]
  refine ⟨h, ?_, ?_⟩
  · norm_num [cropRectMupdf, mupdfCropW, mupdfCropH, mupdfLeft, mupdfTop, mupdfXPad,
      mupdfYPad, jsRound, PADDING_PERCENT]
  · rintro ⟨r, hr, hw⟩
    rw [h, Option.some.injEq] at hr
    rw [← hr] at hw
    exact absurd hw (by norm_num)

/-- Claim C6 (amended): the mupdf-based cropper expands the crop box by the
2% padding and clamps the result to the page's pixel bounds; the pdfjs-based
cropper used by the ingest pipeline applies no padding or clamping; both
return `none` rather than a crop with non-positive width or height. -/
theorem crop_positive_and_clamped :
    (∀ (width height : Int) (b : BBox) (r : CropRectZ),
        cropRectMupdf width height b = some r →
          0 < r.width ∧ 0 < r.height ∧ 0 ≤ r.left ∧ 0 ≤ r.top ∧
            r.left + r.width ≤ width ∧ r.top + r.height ≤ height ∧
            r.width =
              min (jsRound ((((b.xmax - b.xmin : Int) : ℚ) / 1000) * (width : ℚ)) +
                  2 * mupdfXPad b) (width - r.left) ∧
            r.height =
              min (jsRound ((((b.ymax - b.ymin : Int) : ℚ) / 1000) * (height : ℚ)) +
                  2 * mupdfYPad b) (height - r.top))
    ∧ (∀ (width height : ℚ) (b : BBox) (r : CropRectQ),
        cropRectPdfjs width height b = some r →
          0 < r.w ∧ 0 < r.h ∧
            r.w = (((b.xmax - b.xmin : Int) : ℚ) / 1000) * width ∧
            r.h = (((b.ymax - b.ymin : Int) : ℚ) / 1000) * height) := by
  constructor
  · intro width height b r hr
    rw [cropRectMupdf] at hr
    split_ifs at hr with hcond
    rw [Option.some.injEq] at hr
    subst hr
    push_neg at hcond
    have h1 : mupdfCropW width b ≤ width - mupdfLeft width b := min_le_right _ _
    have h2 : mupdfCropH height b ≤ height - mupdfTop height b := min_le_right _ _
    exact ⟨hcond.1, hcond.2, le_max_left 0 _, le_max_left 0 _, by dsimp only; omega,
      by dsimp only; omega, rfl, rfl⟩
  · intro width height b r hr
    simp only [cropRectPdfjs] at hr
    split_ifs at hr with hcond
    rw [Option.some.injEq] at hr
    subst hr
    push_neg at hcond
    exact ⟨hcond.1, hcond.2, rfl, rfl⟩

/-! ### Claim C7: retry behaviour on JSON parse failure -/

/-- Per-chunk generation/parse step of `extractQuestionsFromPDF`
(src/lib/gemini-parser.ts lines 105-132): one `generateContent` call per
chunk; a response that fails to parse as JSON is logged and the chunk is
skipped — there is no retry loop. `gen n` is the parse result of the `n`-th
generation attempt for the chunk; the result is (number of generation
attempts made, questions obtained from the chunk). -/
def processChunkQP (gen : Nat → Option (List ExtractedQuestion)) :
    Nat × List ExtractedQuestion :=
  match gen 0 with
  | some qs => (1, qs)
  | none => (1, [])

/-- The `ExtractedMarkScheme` interface of src/lib/gemini-parser-markscheme.ts. -/
structure MarkSchemeRec where
  questionNumber : String
  markScheme : String
  examinerRemarks : Option String
deriving DecidableEq, Repr

/-- Per-chunk loop of `extractMarkSchemeFromPDF`
(src/lib/gemini-parser-markscheme.ts lines 94-133):
`while (!parseSuccess && retryCount < 2)` — a first attempt, on parse failure
one retry after a fixed 5-second wait, then the chunk is given up. -/
def processChunkMS (gen : Nat → Option (List MarkSchemeRec)) :
    Nat × List MarkSchemeRec :=
  match gen 0 with
  | some s => (1, s)
  | none =>
    match gen 1 with
    | some s => (2, s)
    | none => (2, [])

/-- Claim C7 counterexample: for a chunk whose generation responses never
parse as JSON, the question-document extraction path makes exactly one
generation attempt — the generation is not retried at all, let alone up to
2 times — while the mark-scheme path stops after 2 total attempts. -/
theorem parse_retry_counterexample :
    (processChunkQP (fun _ => none)).1 = 1
    ∧ ¬2 ≤ (processChunkQP (fun _ => none)).1
    ∧ (processChunkMS (fun _ => none)).1 = 2 := by
  refine ⟨rfl, ?_, rfl⟩
  intro h
  simp only [processChunkQP] at h
  omega

/-- Claim C7 (amended): on JSON parse failure the mark-scheme extraction path
retries the whole generation once with a fixed backoff (at most two total
attempts, returning the retry's result when it parses) before giving up on
the chunk; the question-document extraction path makes exactly one generation
attempt per chunk and gives up on that chunk without any retry. -/
theorem parse_retry_behaviour :
    (∀ gen, (processChunkQP gen).1 = 1)
    ∧ (∀ gen qs, gen 0 = some qs → processChunkQP gen = (1, qs))
    ∧ (∀ gen, gen 0 = none → processChunkQP gen = (1, []))
    ∧ (∀ gen, (processChunkMS gen).1 ≤ 2)
    ∧ (∀ gen s, gen 0 = some s → processChunkMS gen = (1, s))
    ∧ (∀ gen s, gen 0 = none → gen 1 = some s → processChunkMS gen = (2, s))
    ∧ (∀ gen, gen 0 = none → gen 1 = none → processChunkMS gen = (2, [])) := by
  refine ⟨?_, ?_, ?_, ?_, ?_, ?_, ?_⟩
  · intro gen
    rcases h : gen 0 with _ | qs <;> simp [processChunkQP, h]
  · intro gen qs h
    simp [processChunkQP, h]
  · intro gen h
    simp [processChunkQP, h]
  · intro gen
    rcases h0 : gen 0 with _ | s
    · rcases h1 : gen 1 with _ | s <;> simp [processChunkMS, h0, h1]
    · simp [processChunkMS, h0]
  · intro gen s h
    simp [processChunkMS, h]
  · intro gen s h0 h1
    simp [processChunkMS, h0, h1]
  · intro gen h0 h1
    simp [processChunkMS, h0, h1]

/-! ### Claim C8: a bad record invalidates the whole batch -/

/-- Mark-scheme required-field check of `extractMarkSchemeFromPDF`
(lines 141-147): `!ms.questionNumber || !ms.markScheme` throws. -/
def validMarkScheme (ms : MarkSchemeRec) : Bool :=
  !(ms.questionNumber == "") && !(ms.markScheme == "")

/-- The validation pass of `extractMarkSchemeFromPDF` (lines 141-147):
the first invalid record throws, aborting the whole batch. -/
def validateMarkSchemes : List MarkSchemeRec → Except String (List MarkSchemeRec)
  | [] => .ok []
  | ms :: rest =>
    if validMarkScheme ms then
      match validateMarkSchemes rest with
      | .ok l => .ok (ms :: l)
      | .error e => .error e
    else .error ("Invalid mark scheme: " ++ ms.questionNumber)

/-- Claim C8: if any single record of a batch fails required-field validation
(a required field missing or empty), validation rejects the whole batch —
it never returns a list of records, so none of the other records of that same
response are accepted — on both the question-document and the
mark-scheme-document extraction paths. -/
theorem invalid_record_fails_whole_batch :
    (∀ (qs : List ExtractedQuestion),
        (∃ q ∈ qs, validQuestion (normalizeMarks q) = false) →
          ∀ out, validateQuestions qs ≠ Except.ok out)
    ∧ (∀ (l : List MarkSchemeRec),
        (∃ ms ∈ l, validMarkScheme ms = false) →
          ∀ out, validateMarkSchemes l ≠ Except.ok out) := by
  constructor
  · intro qs
    induction qs with
    | nil => rintro ⟨q, hq, _⟩ out; cases hq
    | cons p rest ih =>
      rintro ⟨q, hq, hval⟩ out hok
      simp only [validateQuestions] at hok
      split_ifs at hok with hv
      · rcases hrest : validateQuestions rest with e | l <;> rw [hrest] at hok
        · cases hok
        · rcases List.mem_cons.mp hq with rfl | hq'
          · rw [hval] at hv
            exact Bool.false_ne_true hv
          · exact ih ⟨q, hq', hval⟩ l hrest
  · intro l
    induction l with
    | nil => rintro ⟨ms, hms, _⟩ out; cases hms
    | cons p rest ih =>
      rintro ⟨ms, hms, hval⟩ out hok
      simp only [validateMarkSchemes] at hok
      split_ifs at hok with hv
      · rcases hrest : validateMarkSchemes rest with e | l' <;> rw [hrest] at hok
        · cases hok
        · rcases List.mem_cons.mp hms with rfl | hms'
          · rw [hval] at hv
            exact Bool.false_ne_true hv
          · exact ih ⟨ms, hms', hval⟩ l' hrest

/-! ### Claim C10: merging questions with mark schemes -/

/-- The result type of `mergeQuestionsWithMarkSchemes` specialised to
question records: `T & { markScheme: string; examinerRemarks?: string }`. -/
structure MergedQuestion where
  questionNumber : String
  text : String
  marks : Option Int
  topic : String
  difficulty : Difficulty
  hasImage : Bool
  figureBoundingBox : Option BBox
  pageNumber : Int
  markScheme : String
  examinerRemarks : Option String
deriving DecidableEq, Repr

/-- The question fields of a merged record (everything except `markScheme`
and `examinerRemarks`). -/
def MergedQuestion.toExtracted (m : MergedQuestion) : ExtractedQuestion :=
  ⟨m.questionNumber, m.text, m.marks, m.topic, m.difficulty, m.hasImage,
    m.figureBoundingBox, m.pageNumber⟩

/-- `new Map(markSchemes.map(ms => [ms.questionNumber, ms])).get(key)`:
a JS `Map` built from a pair list keeps the last pair of a repeated key. -/
def msLookup (markSchemes : List MarkSchemeRec) (key : String) : Option MarkSchemeRec :=
  markSchemes.reverse.find? (fun ms => ms.questionNumber == key)

/-- The per-question body of `mergeQuestionsWithMarkSchemes`
(src/lib/gemini-parser-markscheme.ts lines 169-186): attach the matching
scheme, or the `'Mark scheme not found'` sentinel and undefined remarks when
the lookup misses. -/
def mergeOne (markSchemes : List MarkSchemeRec) (q : ExtractedQuestion) : MergedQuestion :=
  match msLookup markSchemes q.questionNumber with
  | none =>
    ⟨q.questionNumber, q.text, q.marks, q.topic, q.difficulty, q.hasImage,
      q.figureBoundingBox, q.pageNumber, "Mark scheme not found", none⟩
  | some ms =>
    ⟨q.questionNumber, q.text, q.marks, q.topic, q.difficulty, q.hasImage,
      q.figureBoundingBox, q.pageNumber, ms.markScheme, ms.examinerRemarks⟩

/-- `mergeQuestionsWithMarkSchemes` (src/lib/gemini-parser-markscheme.ts
lines 159-187): `questions.map(...)`. -/
def mergeQuestionsWithMarkSchemes (questions : List ExtractedQuestion)
    (markSchemes : List MarkSchemeRec) : List MergedQuestion :=
  questions.map (mergeOne markSchemes)

/-- Claim C10: the merge is a per-question map — exactly one output record
per input question, in the same order, with every field other than
`markScheme` and `examinerRemarks` unchanged; a question whose key matches no
mark scheme gets the literal sentinel `"Mark scheme not found"` and undefined
remarks instead of being dropped. -/
theorem merge_is_per_question_map :
    ∀ (questions : List ExtractedQuestion) (markSchemes : List MarkSchemeRec),
      (mergeQuestionsWithMarkSchemes questions markSchemes).length = questions.length
      ∧ (mergeQuestionsWithMarkSchemes questions markSchemes).map
          MergedQuestion.toExtracted = questions
      ∧ (∀ q ∈ questions,
          (∀ ms ∈ markSchemes, ms.questionNumber ≠ q.questionNumber) →
            (mergeOne markSchemes q).markScheme = "Mark scheme not found"
            ∧ (mergeOne markSchemes q).examinerRemarks = none
            ∧ mergeOne markSchemes q ∈ mergeQuestionsWithMarkSchemes questions markSchemes) := by
  intro questions markSchemes
  have hto : ∀ q, (mergeOne markSchemes q).toExtracted = q := by
    intro q
    rcases h : msLookup markSchemes q.questionNumber with _ | ms <;>
      simp [mergeOne, h, MergedQuestion.toExtracted]
  refine ⟨by rw [mergeQuestionsWithMarkSchemes, List.length_map], ?_, ?_⟩
  · rw [mergeQuestionsWithMarkSchemes, List.map_map]
    conv_rhs => rw [← List.map_id questions]
    exact List.map_congr_left (fun q _ => hto q)
  · intro q hq hmiss
    have hnone : msLookup markSchemes q.questionNumber = none := by
      rw [msLookup, List.find?_eq_none]
      intro ms hms hbeq
      exact hmiss ms (List.mem_reverse.mp hms) (by rwa [beq_iff_eq] at hbeq)
    refine ⟨?_, ?_, List.mem_map.mpr ⟨q, hq, rfl⟩⟩ <;> simp [mergeOne, hnone]

/-! ### Claim C2: idempotent persistence -/

/-- A natural key (year, paper, questionNumber), as checked by
`questionExists`. -/
abbrev NatKey := Int × String × String

/-- `questionExists` (src/lib/rag/ingest-pipeline.ts lines 92-101): a
`findFirst` by natural key against the persistent store, modelled as the list
of natural keys of the stored question rows. -/
def questionExists (db : List NatKey) (year : Int) (paper : String)
    (questionNumber : String) : Bool :=
  db.contains (year, paper, questionNumber)

/-- Step 4 of `ingestPaper` (lines 134-151): keep only the merged questions
whose natural key is not yet in the store. -/
def filterNewQuestions (db : List NatKey) (year : Int) (paper : String)
    (merged : List MergedQuestion) : List MergedQuestion :=
  merged.filter (fun q => !questionExists db year paper q.questionNumber)

/-- Step 5 of `ingestPaper` (lines 155-191): each new question is persisted
via `prisma.question.create`, so the store gains the new questions' keys. -/
def persistNewQuestions (db : List NatKey) (year : Int) (paper : String)
    (newQuestions : List MergedQuestion) : List NatKey :=
  db ++ newQuestions.map (fun q => (year, paper, q.questionNumber))

/-- One `ingestPaper` run over a merged question list: the duplicate filter
(step 4) followed by persistence (step 5). Returns (store after the run,
questions the persist step processed). -/
def ingestRun (db : List NatKey) (year : Int) (paper : String)
    (merged : List MergedQuestion) : List NatKey × List MergedQuestion :=
  (persistNewQuestions db year paper (filterNewQuestions db year paper merged),
    filterNewQuestions db year paper merged)

theorem natKey_contains_iff (db : List NatKey) (k : NatKey) :
    db.contains k = true ↔ k ∈ db :=
  List.elem_iff

/-- Claim C2: `ingestPaper` checks each merged question against the store by
natural key and persists only the absent ones; hence a second run over the
unchanged merged list has a persist step that processes zero new questions
(from any starting store), and starting from a store containing none of the
keys, the first run persists exactly the merged list, so the two runs
together persist each question exactly once. -/
theorem ingest_idempotent :
    ∀ (db : List NatKey) (year : Int) (paper : String) (merged : List MergedQuestion),
      (ingestRun (ingestRun db year paper merged).1 year paper merged).2 = []
      ∧ ((∀ q ∈ merged, (year, paper, q.questionNumber) ∉ db) →
          (ingestRun db year paper merged).2 = merged
          ∧ (ingestRun db year paper merged).2
              ++ (ingestRun (ingestRun db year paper merged).1 year paper merged).2
            = merged) := by
  intro db year paper merged
  have hsecond :
      (ingestRun (ingestRun db year paper merged).1 year paper merged).2 = [] := by
    simp only [ingestRun, filterNewQuestions]
    rw [List.filter_eq_nil_iff]
    intro q hq
    rw [Bool.not_eq_true, Bool.not_eq_false', questionExists, natKey_contains_iff,
      persistNewQuestions]
    rw [List.mem_append]
    by_cases hdb : (year, paper, q.questionNumber) ∈ db
    · exact Or.inl hdb
    · refine Or.inr (List.mem_map.mpr ⟨q, ?_, rfl⟩)
      rw [List.mem_filter]
      refine ⟨hq, ?_⟩
      rw [Bool.not_eq_true', questionExists, ← Bool.not_eq_true, natKey_contains_iff]
      exact hdb
  refine ⟨hsecond, ?_⟩
  intro hfresh
  have hfirst : (ingestRun db year paper merged).2 = merged := by
    simp only [ingestRun, filterNewQuestions]
    rw [List.filter_eq_self]
    intro q hq
    rw [Bool.not_eq_true', questionExists, ← Bool.not_eq_true, natKey_contains_iff]
    exact hfresh q hq
  rw [hfirst, hsecond, List.append_nil]
  exact ⟨rfl, rfl⟩

/-! ### Claim C9: formatting retrieval results for prompt injection -/

/-- `QuestionMetadata` (src/lib/rag/pinecone.ts). -/
structure QuestionMetadata where
  year : Int
  paper : String
  questionNumber : String
  topic : String
  text : String
  markScheme : String
  examinerRemarks : Option String
  marks : Int
  difficulty : String
deriving DecidableEq, Repr

/-- A `SearchResult` of the retrieval path (src/lib/rag/search.ts). -/
structure SearchResult where
  id : String
  score : ℚ
  metadata : QuestionMetadata
deriving DecidableEq, Repr

/-- One result's labelled section in `formatSearchResultsForPrompt`
(the template literal of src/lib/rag/search.ts lines 52-58). -/
def renderResult (i : Nat) (r : SearchResult) : String :=
  let m := r.metadata
  "--- Question " ++ toString (i + 1) ++ " (" ++ toString m.year ++ " " ++ m.paper ++
    " Q" ++ m.questionNumber ++ ", " ++ m.topic ++ ", " ++ toString m.marks ++
    " marks) ---\nQuestion: " ++ m.text ++ "\n\nMark Scheme: " ++ m.markScheme ++ "\n" ++
    (match m.examinerRemarks with
      | some e => if e == "" then "" else "\nExaminer Remarks: " ++ e
      | none => "")

/-- JavaScript `Array.prototype.join(sep)`. -/
def joinSep (sep : String) : List String → String
  | [] => ""
  | [x] => x
  | x :: xs => x ++ sep ++ joinSep sep xs

/-- `formatSearchResultsForPrompt` (src/lib/rag/search.ts lines 46-61). -/
def formatSearchResultsForPrompt (results : List SearchResult) : String :=
  if results.length = 0 then "No relevant past paper questions found."
  else joinSep "\n\n" (results.mapIdx (fun i r => renderResult i r))

theorem joinSep_cons_length (sep x : String) (xs : List String) :
    x.length ≤ (joinSep sep (x :: xs)).length := by
  cases xs with
  | nil => simp [joinSep]
  | cons y ys =>
    simp only [joinSep, String.length_append]
    omega

theorem renderResult_length_pos (i : Nat) (r : SearchResult) :
    0 < (renderResult i r).length := by
  have h : 0 < ("--- Question " : String).length := by decide
  simp only [renderResult, String.length_append]
  omega

theorem joinSep_ne_empty (sep x : String) (xs : List String) (hx : 0 < x.length) :
    joinSep sep (x :: xs) ≠ "" := by
  intro h
  have h1 := joinSep_cons_length sep x xs
  rw [h] at h1
  have h0 : ("" : String).length = 0 := rfl
  omega

/-- Claim C9: formatting an empty retrieval result list returns the literal
no-context sentinel `"No relevant past paper questions found."` (never the
empty string); a non-empty result list is rendered as the non-empty
`"\n\n"`-join of one labelled section per result. -/
theorem format_results_sentinel :
    formatSearchResultsForPrompt [] = "No relevant past paper questions found."
    ∧ ("No relevant past paper questions found." : String) ≠ ""
    ∧ (∀ results : List SearchResult, results ≠ [] →
        formatSearchResultsForPrompt results =
          joinSep "\n\n" (results.mapIdx (fun i r => renderResult i r))
        ∧ formatSearchResultsForPrompt results ≠ "") := by
  refine ⟨rfl, by decide, ?_⟩
  intro results hne
  have hlen : ¬results.length = 0 := fun h => hne (List.length_eq_zero.mp h)
  constructor
  · rw [formatSearchResultsForPrompt, if_neg hlen]
  · rw [formatSearchResultsForPrompt, if_neg hlen]
    rcases results with _ | ⟨r, rest⟩
    · exact absurd rfl hne
    · simp only [List.mapIdx_cons]
      exact joinSep_ne_empty _ _ _ (renderResult_length_pos 0 r)

/-- Closed instance of claim C9's non-empty case at a one-result list. -/
theorem format_results_sentinel_witness :
    ([⟨"id1", 1, ⟨2024, "Paper 2", "1(a)", "Waves", "question text",
        "scheme text", none, 3, "medium"⟩⟩] : List SearchResult) ≠ []
    ∧ (formatSearchResultsForPrompt
          [⟨"id1", 1, ⟨2024, "Paper 2", "1(a)", "Waves", "question text",
            "scheme text", none, 3, "medium"⟩⟩] =
        joinSep "\n\n"
          (([⟨"id1", 1, ⟨2024, "Paper 2", "1(a)", "Waves", "question text",
              "scheme text", none, 3, "medium"⟩⟩] : List SearchResult).mapIdx
            (fun i r => renderResult i r))
      ∧ formatSearchResultsForPrompt
          [⟨"id1", 1, ⟨2024, "Paper 2", "1(a)", "Waves", "question text",
            "scheme text", none, 3, "medium"⟩⟩] ≠ "") :=
  ⟨by simp, (format_results_sentinel.2.2
    [⟨"id1", 1, ⟨2024, "Paper 2", "1(a)", "Waves", "question text",
      "scheme text", none, 3, "medium"⟩⟩] (by simp))⟩

/-! ### Claim C1: chunk-relative vs absolute page numbers -/

/-- Page-number handling of the chunk loop of `extractQuestionsFromPDF`
(src/lib/gemini-parser.ts lines 84-133): each chunk carries its `startPage`,
but the parsed records are appended to `allQuestions` verbatim
(`allQuestions.push(...chunkQuestions)`) — `startPage` is never applied to a
record's `pageNumber`. -/
def collectChunkQuestions (chunks : List (Nat × List ExtractedQuestion)) :
    List ExtractedQuestion :=
  (chunks.map (fun c => c.2)).flatten

/-- Step 5 of `ingestPaper` (src/lib/rag/ingest-pipeline.ts lines 158-171):
when `q.hasImage && q.figureBoundingBox && q.pageNumber` (JS truthiness),
`cropAndSaveImage` is invoked with `q.pageNumber` as its page argument.
Returns that page argument, or `none` when no crop happens. -/
def cropPageArgument (q : MergedQuestion) : Option Int :=
  if q.hasImage && q.figureBoundingBox.isSome && !(q.pageNumber == 0) then
    some q.pageNumber
  else none

/-- The `MCQQuestion` interface of the vision MCQ parsing module
(src/unnamed/part_009). -/
structure MCQQuestion where
  questionNumber : Int
  questionText : String
  optionA : String
  optionB : String
  optionC : String
  optionD : String
  correctOption : String
  explanation : Option String
  topic : String
  difficulty : Difficulty
  hasImage : Bool
  pageNumber : Option Int
  imageBoundingBox : Option BBox
deriving DecidableEq, Repr

/-- Chunk post-processing of `parseMCQPaper` (src/unnamed/part_009 lines
382-398): `if (q.pageNumber) q.pageNumber += startPage` converts the
chunk-relative page number to an absolute one; then an invalid bounding box
resets `hasImage`, `imageBoundingBox` and `pageNumber`. -/
def adjustChunkQuestion (startPage : Int) (q : MCQQuestion) : MCQQuestion :=
  let q1 :=
    match q.pageNumber with
    | some p => if p == 0 then q else { q with pageNumber := some (p + startPage) }
    | none => q
  match q1.imageBoundingBox with
  | none => q1
  | some b =>
    if q1.hasImage then
      if 0 ≤ b.ymin ∧ 0 ≤ b.xmin ∧ b.ymax ≤ 1000 ∧ b.xmax ≤ 1000 ∧
          b.ymin < b.ymax ∧ b.xmin < b.xmax ∧
          20 ≤ b.ymax - b.ymin ∧ 20 ≤ b.xmax - b.xmin then q1
      else { q1 with hasImage := false, imageBoundingBox := none, pageNumber := none }
    else q1

/-- A question with a figure that the model reports on chunk-relative page 1
of the chunk covering absolute pages 11-20 (`startPage = 10`), so its
absolute page is 11. -/
def qChunkRelative : ExtractedQuestion :=
  ⟨"7(a)", "question with a figure on absolute page 11", some 3, "Electricity",
    .medium, true, some ⟨100, 100, 400, 800⟩, 1⟩

/-- The same record after the merge step, as `ingestPaper`'s persist loop
sees it. -/
def qChunkRelativeMerged : MergedQuestion :=
  ⟨"7(a)", "question with a figure on absolute page 11", some 3, "Electricity",
    .medium, true, some ⟨100, 100, 400, 800⟩, 1, "scheme text", none⟩

/-- An MCQ record reported with the same chunk-relative page 1. -/
def mcqChunkRelative : MCQQuestion :=
  ⟨7, "mcq text", "A", "B", "C", "D", "B", none, "Electricity", .easy, true,
    some 1, some ⟨100, 100, 400, 800⟩⟩

/-- Claim C1 evaluated on the code: a record extracted from the chunk with
`startPage = 10` at chunk-relative page 1 leaves `extractQuestionsFromPDF`
still carrying `pageNumber = 1`, and `ingestPaper` passes exactly that
untranslated `1` — not the absolute page `11` — to `cropAndSaveImage`;
only the MCQ path (`parseMCQPaper`) adds the chunk's start-page offset,
mapping the same chunk-relative page 1 to the absolute page 11. -/
theorem chunk_page_untranslated_on_ingest_path :
    collectChunkQuestions [(0, []), (10, [qChunkRelative])] = [qChunkRelative]
    ∧ (collectChunkQuestions [(0, []), (10, [qChunkRelative])]).map
        (fun q => q.pageNumber) = [1]
    ∧ cropPageArgument qChunkRelativeMerged = some 1
    ∧ cropPageArgument qChunkRelativeMerged ≠ some 11
    ∧ (adjustChunkQuestion 10 mcqChunkRelative).pageNumber = some 11 := by
  refine ⟨by decide, by decide, by decide, by decide, by decide⟩
